import Mathlib

/-!
# Verification of the OTP microservice core

A shallow embedding of the OTP generation/validation engine of the
`otp-microservice` repository (`backend/app/main.py`, `backend/app/auth.py`,
`backend/app/security.py`) together with the library routines those files
call into (the `pyotp` HOTP/TOTP transform over `hashlib` digests and
`hmac`, Python's urlsafe base64, and RFC 4648 base32 decoding).

Bytes are modelled as `Nat` values below 256 in `List Nat`; machine words
are `Nat` reduced modulo `2^32` / `2^64` at every step, exactly where the
corresponding Python integer arithmetic is masked.  All definitions are
executable and structurally recursive so that concrete runs reduce in the
kernel.
-/

/-! ## Word helpers -/

def mask32 (x : Nat) : Nat := x % 4294967296

def mask64 (x : Nat) : Nat := x % 18446744073709551616

def rotl32 (n x : Nat) : Nat := mask32 ((x <<< n) ||| (x >>> (32 - n)))

def rotr32 (n x : Nat) : Nat := mask32 ((x >>> n) ||| (x <<< (32 - n)))

def rotr64 (n x : Nat) : Nat := mask64 ((x >>> n) ||| (x <<< (64 - n)))

def not32 (x : Nat) : Nat := x ^^^ 4294967295

def not64 (x : Nat) : Nat := x ^^^ 18446744073709551615

/-- Big-endian bytes of `n`, in a field of `w` bytes. -/
def beBytes (w n : Nat) : List Nat :=
  (List.range w).map (fun j => n / 256 ^ (w - 1 - j) % 256)

/-- Group bytes into big-endian 32-bit words (as `hashlib` does per chunk). -/
def bytesToWords32 : List Nat → List Nat
  | a :: b :: c :: d :: rest =>
      (((a * 256 + b) * 256 + c) * 256 + d) :: bytesToWords32 rest
  | _ => []

/-- Group bytes into big-endian 64-bit words. -/
def bytesToWords64 : List Nat → List Nat
  | a :: b :: c :: d :: e :: f :: g :: h :: rest =>
      (((((((a * 256 + b) * 256 + c) * 256 + d) * 256 + e) * 256 + f) * 256 + g) * 256 + h)
        :: bytesToWords64 rest
  | _ => []

/-! ## SHA-1 (hashlib.sha1) -/

/-- Merkle–Damgård padding: `0x80`, zeros, then the bit length in a
`lenBytes`-byte big-endian field, to a multiple of `block` bytes. -/
def mdPad (block lenBytes : Nat) (msg : List Nat) : List Nat :=
  let len := msg.length
  let zeros := (block - 1 - lenBytes + block - len % block) % block
  msg ++ [128] ++ List.replicate zeros 0 ++ beBytes lenBytes (len * 8)

/-- Extend 16 schedule words to 80; `acc` holds the words most recent first. -/
def sha1Extend : Nat → List Nat → List Nat
  | 0, acc => acc
  | n + 1, acc =>
    let w := rotl32 1 (((acc.getD 2 0) ^^^ (acc.getD 7 0)) ^^^ ((acc.getD 13 0) ^^^ (acc.getD 15 0)))
    sha1Extend n (w :: acc)

def sha1F (i b c d : Nat) : Nat :=
  if i < 20 then (b &&& c) ||| ((not32 b) &&& d)
  else if i < 40 then (b ^^^ c) ^^^ d
  else if i < 60 then ((b &&& c) ||| (b &&& d)) ||| (c &&& d)
  else (b ^^^ c) ^^^ d

def sha1K (i : Nat) : Nat :=
  if i < 20 then 1518500249
  else if i < 40 then 1859775393
  else if i < 60 then 2400959708
  else 3395469782

def sha1Rounds : Nat → List Nat → Nat × Nat × Nat × Nat × Nat → Nat × Nat × Nat × Nat × Nat
  | _, [], st => st
  | i, w :: ws, (a, b, c, d, e) =>
    let temp := mask32 (rotl32 5 a + sha1F i b c d + e + sha1K i + w)
    sha1Rounds (i + 1) ws (temp, a, rotl32 30 b, c, d)

def sha1Chunk (h : Nat × Nat × Nat × Nat × Nat) (ws : List Nat) : Nat × Nat × Nat × Nat × Nat :=
  let wsFull := (sha1Extend 64 ws.reverse).reverse
  let (h0, h1, h2, h3, h4) := h
  let (a, b, c, d, e) := sha1Rounds 0 wsFull h
  (mask32 (h0 + a), mask32 (h1 + b), mask32 (h2 + c), mask32 (h3 + d), mask32 (h4 + e))

def sha1Chunks : Nat → (Nat × Nat × Nat × Nat × Nat) → List Nat → Nat × Nat × Nat × Nat × Nat
  | 0, h, _ => h
  | n + 1, h, ws => sha1Chunks n (sha1Chunk h (ws.take 16)) (ws.drop 16)

def sha1 (msg : List Nat) : List Nat :=
  let ws := bytesToWords32 (mdPad 64 8 msg)
  let (h0, h1, h2, h3, h4) :=
    sha1Chunks (ws.length / 16) (1732584193, 4023233417, 2562383102, 271733878, 3285377520) ws
  beBytes 4 h0 ++ beBytes 4 h1 ++ beBytes 4 h2 ++ beBytes 4 h3 ++ beBytes 4 h4

/-! ## SHA-256 (hashlib.sha256) -/

def sha256K : List Nat :=
  [1116352408, 1899447441, 3049323471, 3921009573, 961987163, 1508970993, 2453635748, 2870763221,
   3624381080, 310598401, 607225278, 1426881987, 1925078388, 2162078206, 2614888103, 3248222580,
   3835390401, 4022224774, 264347078, 604807628, 770255983, 1249150122, 1555081692, 1996064986,
   2554220882, 2821834349, 2952996808, 3210313671, 3336571891, 3584528711, 113926993, 338241895,
   666307205, 773529912, 1294757372, 1396182291, 1695183700, 1986661051, 2177026350, 2456956037,
   2730485921, 2820302411, 3259730800, 3345764771, 3516065817, 3600352804, 4094571909, 275423344,
   430227734, 506948616, 659060556, 883997877, 958139571, 1322822218, 1537002063, 1747873779,
   1955562222, 2024104815, 2227730452, 2361852424, 2428436474, 2756734187, 3204031479, 3329325298]

def sha256SmallSigma0 (x : Nat) : Nat := (rotr32 7 x ^^^ rotr32 18 x) ^^^ (x >>> 3)

def sha256SmallSigma1 (x : Nat) : Nat := (rotr32 17 x ^^^ rotr32 19 x) ^^^ (x >>> 10)

def sha256BigSigma0 (x : Nat) : Nat := (rotr32 2 x ^^^ rotr32 13 x) ^^^ rotr32 22 x

def sha256BigSigma1 (x : Nat) : Nat := (rotr32 6 x ^^^ rotr32 11 x) ^^^ rotr32 25 x

/-- Extend 16 schedule words to 64; `acc` holds the words most recent first. -/
def sha256Extend : Nat → List Nat → List Nat
  | 0, acc => acc
  | n + 1, acc =>
    let w := mask32 (sha256SmallSigma1 (acc.getD 1 0) + acc.getD 6 0 +
      sha256SmallSigma0 (acc.getD 14 0) + acc.getD 15 0)
    sha256Extend n (w :: acc)

abbrev Regs8 := Nat × Nat × Nat × Nat × Nat × Nat × Nat × Nat

def sha256Rounds : List (Nat × Nat) → Regs8 → Regs8
  | [], st => st
  | (k, w) :: kws, (a, b, c, d, e, f, g, h) =>
    let temp1 := mask32 (h + sha256BigSigma1 e + ((e &&& f) ^^^ (not32 e &&& g)) + k + w)
    let temp2 := mask32 (sha256BigSigma0 a + (((a &&& b) ^^^ (a &&& c)) ^^^ (b &&& c)))
    sha256Rounds kws (mask32 (temp1 + temp2), a, b, c, mask32 (d + temp1), e, f, g)

def sha256Chunk (h : Regs8) (ws : List Nat) : Regs8 :=
  let wsFull := (sha256Extend 48 ws.reverse).reverse
  let (h0, h1, h2, h3, h4, h5, h6, h7) := h
  let (a, b, c, d, e, f, g, hh) := sha256Rounds (sha256K.zip wsFull) h
  (mask32 (h0 + a), mask32 (h1 + b), mask32 (h2 + c), mask32 (h3 + d),
   mask32 (h4 + e), mask32 (h5 + f), mask32 (h6 + g), mask32 (h7 + hh))

def sha256Chunks : Nat → Regs8 → List Nat → Regs8
  | 0, h, _ => h
  | n + 1, h, ws => sha256Chunks n (sha256Chunk h (ws.take 16)) (ws.drop 16)

def sha256 (msg : List Nat) : List Nat :=
  let ws := bytesToWords32 (mdPad 64 8 msg)
  let (h0, h1, h2, h3, h4, h5, h6, h7) :=
    sha256Chunks (ws.length / 16)
      (1779033703, 3144134277, 1013904242, 2773480762, 1359893119, 2600822924, 528734635, 1541459225) ws
  beBytes 4 h0 ++ beBytes 4 h1 ++ beBytes 4 h2 ++ beBytes 4 h3 ++
    beBytes 4 h4 ++ beBytes 4 h5 ++ beBytes 4 h6 ++ beBytes 4 h7

/-! ## SHA-512 (hashlib.sha512) -/

def sha512K : List Nat :=
  [4794697086780616226, 8158064640168781261, 13096744586834688815, 16840607885511220156,
   4131703408338449720, 6480981068601479193, 10538285296894168987, 12329834152419229976,
   15566598209576043074, 1334009975649890238, 2608012711638119052, 6128411473006802146,
   8268148722764581231, 9286055187155687089, 11230858885718282805, 13951009754708518548,
   16472876342353939154, 17275323862435702243, 1135362057144423861, 2597628984639134821,
   3308224258029322869, 5365058923640841347, 6679025012923562964, 8573033837759648693,
   10970295158949994411, 12119686244451234320, 12683024718118986047, 13788192230050041572,
   14330467153632333762, 15395433587784984357, 489312712824947311, 1452737877330783856,
   2861767655752347644, 3322285676063803686, 5560940570517711597, 5996557281743188959,
   7280758554555802590, 8532644243296465576, 9350256976987008742, 10552545826968843579,
   11727347734174303076, 12113106623233404929, 14000437183269869457, 14369950271660146224,
   15101387698204529176, 15463397548674623760, 17586052441742319658, 1182934255886127544,
   1847814050463011016, 2177327727835720531, 2830643537854262169, 3796741975233480872,
   4115178125766777443, 5681478168544905931, 6601373596472566643, 7507060721942968483,
   8399075790359081724, 8693463985226723168, 9568029438360202098, 10144078919501101548,
   10430055236837252648, 11840083180663258601, 13761210420658862357, 14299343276471374635,
   14566680578165727644, 15097957966210449927, 16922976911328602910, 17689382322260857208,
   500013540394364858, 748580250866718886, 1242879168328830382, 1977374033974150939,
   2944078676154940804, 3659926193048069267, 4368137639120453308, 4836135668995329356,
   5532061633213252278, 6448918945643986474, 6902733635092675308, 7801388544844847127]

def sha512SmallSigma0 (x : Nat) : Nat := (rotr64 1 x ^^^ rotr64 8 x) ^^^ (x >>> 7)

def sha512SmallSigma1 (x : Nat) : Nat := (rotr64 19 x ^^^ rotr64 61 x) ^^^ (x >>> 6)

def sha512BigSigma0 (x : Nat) : Nat := (rotr64 28 x ^^^ rotr64 34 x) ^^^ rotr64 39 x

def sha512BigSigma1 (x : Nat) : Nat := (rotr64 14 x ^^^ rotr64 18 x) ^^^ rotr64 41 x

def sha512Extend : Nat → List Nat → List Nat
  | 0, acc => acc
  | n + 1, acc =>
    let w := mask64 (sha512SmallSigma1 (acc.getD 1 0) + acc.getD 6 0 +
      sha512SmallSigma0 (acc.getD 14 0) + acc.getD 15 0)
    sha512Extend n (w :: acc)

def sha512Rounds : List (Nat × Nat) → Regs8 → Regs8
  | [], st => st
  | (k, w) :: kws, (a, b, c, d, e, f, g, h) =>
    let temp1 := mask64 (h + sha512BigSigma1 e + ((e &&& f) ^^^ (not64 e &&& g)) + k + w)
    let temp2 := mask64 (sha512BigSigma0 a + (((a &&& b) ^^^ (a &&& c)) ^^^ (b &&& c)))
    sha512Rounds kws (mask64 (temp1 + temp2), a, b, c, mask64 (d + temp1), e, f, g)

def sha512Chunk (h : Regs8) (ws : List Nat) : Regs8 :=
  let wsFull := (sha512Extend 64 ws.reverse).reverse
  let (h0, h1, h2, h3, h4, h5, h6, h7) := h
  let (a, b, c, d, e, f, g, hh) := sha512Rounds (sha512K.zip wsFull) h
  (mask64 (h0 + a), mask64 (h1 + b), mask64 (h2 + c), mask64 (h3 + d),
   mask64 (h4 + e), mask64 (h5 + f), mask64 (h6 + g), mask64 (h7 + hh))

def sha512Chunks : Nat → Regs8 → List Nat → Regs8
  | 0, h, _ => h
  | n + 1, h, ws => sha512Chunks n (sha512Chunk h (ws.take 16)) (ws.drop 16)

def sha512 (msg : List Nat) : List Nat :=
  let ws := bytesToWords64 (mdPad 128 16 msg)
  let (h0, h1, h2, h3, h4, h5, h6, h7) :=
    sha512Chunks (ws.length / 16)
      (7640891576956012808, 13503953896175478587, 4354685564936845355, 11912009170470909681,
       5840696475078001361, 11170449401992604703, 2270897969802886507, 6620516959819538809) ws
  beBytes 8 h0 ++ beBytes 8 h1 ++ beBytes 8 h2 ++ beBytes 8 h3 ++
    beBytes 8 h4 ++ beBytes 8 h5 ++ beBytes 8 h6 ++ beBytes 8 h7

/-! ## Digest selection and HMAC

`backend/app/auth.py`, `get_digest_algorithm`: a `hashlib` constructor is
modelled as the digest function together with its block size (64 bytes for
SHA-1/SHA-256, 128 for SHA-512), which is all `hmac.new` uses. -/

structure HashFn where
  hash : List Nat → List Nat
  blockSize : Nat

def sha1Fn : HashFn := ⟨sha1, 64⟩

def sha256Fn : HashFn := ⟨sha256, 64⟩

def sha512Fn : HashFn := ⟨sha512, 128⟩

/-- Python's `str.lower()`, character by character (the algorithm names in
play are ASCII, where this agrees with Python). -/
def strLower (s : String) : String := String.mk (s.data.map Char.toLower)

/-- From `auth.get_digest_algorithm`: `algorithm_map.get(algorithm.lower(), hashlib.sha1)` —
note the silent default to SHA-1 for unrecognized names. -/
def get_digest_algorithm (algorithm : String) : HashFn :=
  match strLower algorithm with
  | "sha1" => sha1Fn
  | "sha256" => sha256Fn
  | "sha512" => sha512Fn
  | _ => sha1Fn

/-- Python's `hmac.new(key, msg, digestmod).digest()`. -/
def hmacH (H : HashFn) (key msg : List Nat) : List Nat :=
  let k0 := if H.blockSize < key.length then H.hash key else key
  let kPad := k0 ++ List.replicate (H.blockSize - k0.length) 0
  H.hash ((kPad.map (fun b => b ^^^ 92)) ++ H.hash ((kPad.map (fun b => b ^^^ 54)) ++ msg))

/-! ## Base32 decoding (`base64.b32decode(s, casefold=True)`)

Mirrors CPython's `_b32decode`: length must be a multiple of 8, trailing
padding of 0/1/3/4/6 `'='` characters, 8-character quanta accumulated
5 bits at a time, and the trailing partial quantum patched in via the
`leftover = (43 - 5*padchars) // 8` adjustment. -/

def b32Alphabet : List Char := "ABCDEFGHIJKLMNOPQRSTUVWXYZ234567".toList

def b32Rev (c : Char) : Option Nat :=
  let i := b32Alphabet.indexOf c
  if i < 32 then some i else none

def b32Quints : List Char → Option (List Nat)
  | [] => some []
  | c :: cs =>
    match b32Rev c, b32Quints cs with
    | some q, some qs => some (q :: qs)
    | _, _ => none

/-- The fold `(acc << 5) + b32rev[c]` over one quantum. -/
def b32Acc (acc : Nat) : List Nat → Nat
  | [] => acc
  | q :: qs => b32Acc (acc * 32 + q) qs

/-- The decode loop over successive quanta (the last one possibly partial). -/
def b32DecodeLoop : List Nat → List Nat
  | q1 :: q2 :: q3 :: q4 :: q5 :: q6 :: q7 :: q8 :: rest =>
      beBytes 5 (b32Acc 0 [q1, q2, q3, q4, q5, q6, q7, q8]) ++ b32DecodeLoop rest
  | [] => []
  | qs => beBytes 5 (b32Acc 0 qs)

def b32decode (s : List Char) : Option (List Nat) :=
  let up := s.map Char.toUpper
  if up.length % 8 ≠ 0 then none else
  let stripped := (up.reverse.dropWhile (fun c => c = '=')).reverse
  let padchars := up.length - stripped.length
  if ¬ (padchars = 0 ∨ padchars = 1 ∨ padchars = 3 ∨ padchars = 4 ∨ padchars = 6) then none else
  match b32Quints stripped with
  | none => none
  | some qs =>
    let decoded := b32DecodeLoop qs
    if padchars = 0 ∨ decoded.isEmpty then some decoded
    else
      let lastGroup := qs.drop (qs.length / 8 * 8)
      let last5 := beBytes 5 (b32Acc 0 lastGroup <<< (5 * padchars))
      let leftover := (43 - 5 * padchars) / 8
      some (decoded.take (decoded.length - 5) ++ last5.take leftover)

/-! ## The pyotp engine

`pyotp.OTP.generate_otp` / `byte_secret` / `int_to_bytestring`, and the
`TOTP` / `HOTP` subclasses as used by `main.generate_otp` and
`main.validate_otp`. -/

/-- From `pyotp.OTP.byte_secret`: pad the base32 text to a multiple of 8 with
`'='` and decode it (`casefold=True`). -/
def byte_secret (secret : List Char) : Option (List Nat) :=
  let s := if secret.length % 8 ≠ 0
    then secret ++ List.replicate (8 - secret.length % 8) '='
    else secret
  b32decode s

/-- Minimal big-endian byte string of `n` (empty for 0); the fuel argument
only bounds the recursion and is always sufficient at `n + 1`. -/
def beBytesAux : Nat → Nat → List Nat → List Nat
  | 0, _, acc => acc
  | fuel + 1, n, acc => if n = 0 then acc else beBytesAux fuel (n / 256) (n % 256 :: acc)

/-- From `pyotp.OTP.int_to_bytestring`: big-endian bytes right-justified to
8 bytes with zeros. -/
def int_to_bytestring (n : Nat) : List Nat :=
  let r := beBytesAux (n + 1) n []
  List.replicate (8 - r.length) 0 ++ r

/-- From `pyotp.OTP.generate_otp`: HMAC, RFC 4226 dynamic truncation
(4-bit offset from the last byte, 31-bit big-endian extraction), then
`str(10_000_000_000 + (code % 10**digits))[-digits:]`. -/
def generate_otp_code (H : HashFn) (sk : List Nat) (digits input : Nat) : String :=
  let digest := hmacH H sk (int_to_bytestring input)
  let off := digest.getD (digest.length - 1) 0 &&& 15
  let code := ((digest.getD off 0 &&& 127) <<< 24) ||| (digest.getD (off + 1) 0 <<< 16) |||
    (digest.getD (off + 2) 0 <<< 8) ||| digest.getD (off + 3) 0
  let s := Nat.toDigits 10 (10000000000 + code % 10 ^ digits)
  String.mk (s.drop (s.length - digits))

/-- From `pyotp.TOTP.timecode`: `int(unix_time / interval)`. -/
def timecode (interval t : Nat) : Nat := t / interval

/-- From `pyotp.TOTP.at`. -/
def totp_at (H : HashFn) (sk : List Nat) (digits interval t : Nat) : String :=
  generate_otp_code H sk digits (timecode interval t)

/-- From `pyotp.TOTP.verify(otp, for_time, valid_window)`: compare against the
codes at counter offsets `-window ..= window` around `timecode(t)` (here
`j - window` for `j < 2*window + 1`, with truncated subtraction at 0). -/
def totp_verify (H : HashFn) (sk : List Nat) (digits interval : Nat) (otp : String)
    (t window : Nat) : Bool :=
  (List.range (2 * window + 1)).any fun j =>
    otp == generate_otp_code H sk digits (timecode interval t + j - window)

/-- From `pyotp.HOTP.at`. -/
def hotp_at (H : HashFn) (sk : List Nat) (digits counter : Nat) : String :=
  generate_otp_code H sk digits counter

/-- From `pyotp.HOTP.verify`: exact match against the single supplied counter. -/
def hotp_verify (H : HashFn) (sk : List Nat) (digits : Nat) (otp : String) (counter : Nat) : Bool :=
  otp == hotp_at H sk digits counter

def rfcBase32Secret : List Char := "GEZDGNBVGY3TQOJQGEZDGNBVGY3TQOJQ".toList

/-! ## urlsafe base64 (`base64.urlsafe_b64encode` / `urlsafe_b64decode`)

Used by `security.SecurityManager.encrypt_secret` / `decrypt_secret` to
store the encrypted token in a text column. -/

def b64Alphabet : List Char :=
  "ABCDEFGHIJKLMNOPQRSTUVWXYZabcdefghijklmnopqrstuvwxyz0123456789-_".toList

def b64Char (n : Nat) : Char := b64Alphabet.getD n 'A'

def b64Rev (c : Char) : Option Nat :=
  let i := b64Alphabet.indexOf c
  if i < 64 then some i else none

def encodeB64 : List Nat → List Char
  | a :: b :: c :: rest =>
      b64Char (a / 4) :: b64Char (a % 4 * 16 + b / 16) :: b64Char (b % 16 * 4 + c / 64) ::
        b64Char (c % 64) :: encodeB64 rest
  | [a, b] => [b64Char (a / 4), b64Char (a % 4 * 16 + b / 16), b64Char (b % 16 * 4), '=']
  | [a] => [b64Char (a / 4), b64Char (a % 4 * 16), '=', '=']
  | [] => []

def decodeB64 : List Char → Option (List Nat)
  | c1 :: c2 :: c3 :: c4 :: rest =>
    match b64Rev c1, b64Rev c2 with
    | some q1, some q2 =>
      if c3 = '=' then
        if c4 = '=' ∧ rest = [] then some [q1 * 4 + q2 / 16] else none
      else
        match b64Rev c3 with
        | some q3 =>
          if c4 = '=' then
            if rest = [] then some [q1 * 4 + q2 / 16, q2 % 16 * 16 + q3 / 4] else none
          else
            match b64Rev c4 with
            | some q4 =>
              (decodeB64 rest).map fun tail =>
                (q1 * 4 + q2 / 16) :: (q2 % 16 * 16 + q3 / 4) :: (q3 % 4 * 64 + q4) :: tail
            | none => none
        | none => none
    | _, _ => none
  | [] => some []
  | _ => none

/-! ## SecretCipher (`security.SecurityManager`)

Modelled from the spec: the authenticated-encryption core used by
`SecurityManager.encrypt_secret` / `decrypt_secret` is the third-party
`cryptography.fernet.Fernet` class, whose source is not part of this
repository.  Following the spec (§4.1, §3 EncryptedBlob), a token is
nonce/IV plus ciphertext plus authentication tag; encryption masks the
plaintext bytes with a key/nonce-derived keystream, and decryption
recomputes the tag over the received nonce and ciphertext and fails closed
(`none`, the `IntegrityError` of the spec) whenever it does not match.
The MAC is modelled as an ideal (injective) MAC, which is exactly the
guarantee the spec assigns to the authentication tag. -/

structure EncryptedBlob where
  nonce : Nat
  ct : List Nat
  tag : List Nat
  deriving DecidableEq

/-- Keystream byte `i` derived from key and nonce. -/
def keystream (key nonce i : Nat) : Nat := (key + (nonce + 1) * (i + 1)) % 256

def xorStream (key nonce : Nat) : Nat → List Nat → List Nat
  | _, [] => []
  | i, b :: rest => (b ^^^ keystream key nonce i) :: xorStream key nonce (i + 1) rest

/-- Modelled from the spec: the ideal authentication tag over the nonce and
the ciphertext under `key` (injective, so it verifies only for exactly the
authenticated data). -/
def macTag (key nonce : Nat) (ct : List Nat) : List Nat := key % 256 :: nonce :: ct

/-- Modelled from the spec: authenticated encryption with a caller-supplied
fresh nonce. -/
def fernetEncrypt (key nonce : Nat) (pt : List Nat) : EncryptedBlob :=
  let n := nonce % 256
  let ct := xorStream key n 0 pt
  ⟨n, ct, macTag key n ct⟩

/-- Modelled from the spec: verify the tag, then (and only then) undo the
keystream; `none` is the fail-closed `IntegrityError` outcome. -/
def fernetDecrypt (key : Nat) (blob : EncryptedBlob) : Option (List Nat) :=
  if blob.tag = macTag key blob.nonce blob.ct then some (xorStream key blob.nonce 0 blob.ct)
  else none

/-- The token byte sequence of a blob: nonce, ciphertext, tag. -/
def serializeBlob (blob : EncryptedBlob) : List Nat := blob.nonce :: blob.ct ++ blob.tag

/-- Recover the structure of a well-formed token
(`tag.length = ct.length + 2`, so the split point is determined). -/
def parseBlob : List Nat → Option EncryptedBlob
  | [] => none
  | nonce :: rest =>
    let n := (rest.length - 2) / 2
    if rest.length = 2 * n + 2 then some ⟨nonce, rest.take n, rest.drop n⟩ else none

/-- Decrypt a raw token byte sequence. -/
def decryptToken (key : Nat) (token : List Nat) : Option (List Nat) :=
  (parseBlob token).bind (fernetDecrypt key)

/-- From `SecurityManager.encrypt_secret`: encrypt, then
`base64.urlsafe_b64encode(...)` for the text column. -/
def encrypt_secret (key nonce : Nat) (secret : List Nat) : List Char :=
  encodeB64 (serializeBlob (fernetEncrypt key nonce secret))

/-- From `SecurityManager.decrypt_secret`: `base64.urlsafe_b64decode`, then
decrypt; any failure is the raised `ValueError("Decryption failed: ...")`. -/
def decrypt_secret (key : Nat) (stored : List Char) : Option (List Nat) :=
  (decodeB64 stored).bind (decryptToken key)

/-! ## The OTP endpoints (`main.generate_otp`, `main.validate_otp`)

State is the `OTPConfig` row the handlers read and (for HOTP) write back;
each handler is a function from the row and the request to the outcome and
the updated row.  The HTTP/404/rate-limit layers are out of scope; the
handlers are modelled from the point where the row has been fetched. -/

structure OTPConfig where
  otp_type : String
  algorithm : String
  digits : Nat
  interval : Nat
  counter : Nat
  secret_key : List Char
  updated_at : Nat
  deriving DecidableEq

structure OTPGenerateResponse where
  otp_code : String
  remaining_seconds : Option Nat
  next_counter : Option Nat
  deriving DecidableEq

structure OTPValidateResponse where
  is_valid : Bool
  message : String
  deriving DecidableEq

/-- ASCII string of decrypted secret bytes (`decrypted.decode()`). -/
def bytesToChars (bs : List Nat) : List Char := bs.map Char.ofNat

/-- From `main.generate_otp`, after the config row is fetched: decrypt the secret,
branch on `otp_type == 'totp'`, compute the code; for HOTP, increment the
stored counter and stamp `updated_at` exactly when `counter_increment` is
set.  Exceptions (decrypt failure, undecodable secret) become the 500
response, with the row untouched. -/
def generate_otp (key : Nat) (cfg : OTPConfig) (counter_increment : Bool) (now : Nat) :
    Except String OTPGenerateResponse × OTPConfig :=
  match decrypt_secret key cfg.secret_key with
  | none => (Except.error "Security error: failed to decrypt OTP secret", cfg)
  | some secretBytes =>
    match byte_secret (bytesToChars secretBytes) with
    | none => (Except.error "Internal server error", cfg)
    | some sk =>
      let digest := get_digest_algorithm cfg.algorithm
      if cfg.otp_type = "totp" then
        let code := totp_at digest sk cfg.digits cfg.interval now
        (Except.ok ⟨code, some (cfg.interval - now % cfg.interval), none⟩, cfg)
      else
        let code := hotp_at digest sk cfg.digits cfg.counter
        if counter_increment then
          (Except.ok ⟨code, none, some (cfg.counter + 1)⟩,
            { cfg with counter := cfg.counter + 1, updated_at := now })
        else
          (Except.ok ⟨code, none, none⟩, cfg)

/-- From `main.validate_otp`, after the config row is fetched: decrypt, branch on
`otp_type`; TOTP verifies with `valid_window=1` at the current time; HOTP
verifies exactly at the explicit counter if one was supplied, else at the
stored counter, and on success without an explicit counter increments the
stored counter and stamps `updated_at`. -/
def validate_otp (key : Nat) (cfg : OTPConfig) (otp_code : String) (counterOpt : Option Nat)
    (now : Nat) : Except String OTPValidateResponse × OTPConfig :=
  match decrypt_secret key cfg.secret_key with
  | none => (Except.error "Security error: failed to decrypt OTP secret", cfg)
  | some secretBytes =>
    match byte_secret (bytesToChars secretBytes) with
    | none => (Except.error "Internal server error", cfg)
    | some sk =>
      let digest := get_digest_algorithm cfg.algorithm
      if cfg.otp_type = "totp" then
        let ok := totp_verify digest sk cfg.digits cfg.interval otp_code now 1
        (Except.ok ⟨ok, if ok then "TOTP validation successful" else "Invalid TOTP code"⟩, cfg)
      else
        let counter := counterOpt.getD cfg.counter
        let ok := hotp_verify digest sk cfg.digits otp_code counter
        let res : OTPValidateResponse :=
          ⟨ok, if ok then "HOTP validation successful" else "Invalid HOTP code or counter"⟩
        if ok ∧ counterOpt = none then
          (Except.ok res, { cfg with counter := cfg.counter + 1, updated_at := now })
        else
          (Except.ok res, cfg)

/-- Returns `true` exactly on a successful validation outcome. -/
def validationSucceeded (r : Except String OTPValidateResponse) : Bool :=
  match r with
  | Except.ok res => res.is_valid
  | Except.error _ => false

/-! ## Rate limiter (`main.RateLimiter.is_rate_limited`)

Per-key state is the list of recorded attempt timestamps (modelled as
integer seconds).  Each call prunes entries at or before `now - window`,
then either denies (at `max_requests` kept entries, recording nothing) or
records `now` and allows.  The periodic `_cleanup_old_entries` pass only
prunes other keys' stale lists and never changes this per-key outcome. -/

def is_rate_limited (attempts : List Int) (now : Int) (max_requests window : Nat) :
    Bool × List Int :=
  let kept := attempts.filter (fun t => now - (window : Int) < t)
  if max_requests ≤ kept.length then (true, kept)
  else (false, kept ++ [now])

/-! ## Concrete fixtures for the RFC test vectors -/

/-- The 20 ASCII bytes of `"12345678901234567890"`. -/
def rfcSecretBytes : List Nat :=
  [49, 50, 51, 52, 53, 54, 55, 56, 57, 48, 49, 50, 51, 52, 53, 54, 55, 56, 57, 48]

/-- A stored TOTP configuration row over the RFC secret (key 7, nonce 11). -/
def cfgTotpRfc : OTPConfig :=
  ⟨"totp", "sha1", 8, 30, 0, encrypt_secret 7 11 (rfcBase32Secret.map Char.toNat), 0⟩

/-- A stored HOTP configuration row over the RFC secret (key 7, nonce 11). -/
def cfgHotpRfc : OTPConfig :=
  ⟨"hotp", "sha1", 6, 30, 0, encrypt_secret 7 11 (rfcBase32Secret.map Char.toNat), 0⟩

/-! ## Claim theorems -/

instance {ε α : Type} [DecidableEq ε] [DecidableEq α] : DecidableEq (Except ε α)
  | Except.ok a, Except.ok b =>
    if h : a = b then Decidable.isTrue (congrArg Except.ok h)
    else Decidable.isFalse (fun he => h (Except.ok.inj he))
  | Except.error e, Except.error f =>
    if h : e = f then Decidable.isTrue (congrArg Except.error h)
    else Decidable.isFalse (fun he => h (Except.error.inj he))
  | Except.ok _, Except.error _ => Decidable.isFalse (fun he => Except.noConfusion he)
  | Except.error _, Except.ok _ => Decidable.isFalse (fun he => Except.noConfusion he)

set_option maxRecDepth 100000

/-- C1: TOTP generation conforms to the RFC 6238 test vectors: the base32
secret decoding to the ASCII bytes of `"12345678901234567890"`, with SHA-1,
8 digits and a 30-second interval, yields `"94287082"` at unix time 59 and
`"07081804"` at unix time 1111111109 (zero-padded to 8 digits); the
`generate_otp` handler produces exactly these codes. -/
theorem totp_rfc6238_vectors :
    byte_secret rfcBase32Secret = some rfcSecretBytes ∧
    totp_at sha1Fn rfcSecretBytes 8 30 59 = "94287082" ∧
    totp_at sha1Fn rfcSecretBytes 8 30 1111111109 = "07081804" ∧
    (generate_otp 7 cfgTotpRfc false 59).1 =
      Except.ok ⟨"94287082", some 1, none⟩ ∧
    (generate_otp 7 cfgTotpRfc false 1111111109).1 =
      Except.ok ⟨"07081804", some 1, none⟩ := by
  exact ⟨by decide, by decide, by decide, by decide, by decide⟩

/-- C6: HOTP generation conforms to the RFC 4226 test vectors: the base32
secret decoding to the ASCII bytes of `"12345678901234567890"`, with SHA-1
and 6 digits, yields `"755224"` at counter 0 and `"287082"` at counter 1;
the `generate_otp` handler produces exactly these codes. -/
theorem hotp_rfc4226_vectors :
    hotp_at sha1Fn rfcSecretBytes 6 0 = "755224" ∧
    hotp_at sha1Fn rfcSecretBytes 6 1 = "287082" ∧
    (generate_otp 7 cfgHotpRfc false 0).1 = Except.ok ⟨"755224", none, none⟩ ∧
    (generate_otp 7 { cfgHotpRfc with counter := 1 } false 0).1 =
      Except.ok ⟨"287082", none, none⟩ := by
  exact ⟨by decide, by decide, by decide, by decide⟩

/-- C2 counterexample: the claim that an unrecognized algorithm name fails
with a `ConfigurationError` is false: `get_digest_algorithm "md5"` silently
returns the SHA-1 digest (`algorithm_map.get(..., hashlib.sha1)`,
`auth.py` line 210), and generation over an `"md5"` configuration succeeds,
producing the SHA-1 code instead of surfacing any error. -/
theorem md5_algorithm_silently_defaults :
    get_digest_algorithm "md5" = sha1Fn ∧
    (generate_otp 7 { cfgTotpRfc with algorithm := "md5" } false 59).1 =
      Except.ok ⟨"94287082", some 1, none⟩ := by
  exact ⟨rfl, by decide⟩

/-- C2 (amended): for every algorithm string whose lower-casing is outside
`{sha1, sha256, sha512}`, `get_digest_algorithm` silently falls back to
SHA-1 rather than raising a configuration error, so OTP generation and
validation proceed with the SHA-1 digest. -/
theorem get_digest_algorithm_fallback (alg : String)
    (h1 : strLower alg ≠ "sha1") (h2 : strLower alg ≠ "sha256")
    (h3 : strLower alg ≠ "sha512") :
    get_digest_algorithm alg = sha1Fn := by
  unfold get_digest_algorithm
  split <;> simp_all

/-- C2 witness: the fallback theorem applied at the concrete name `"SHA3"`. -/
theorem get_digest_algorithm_fallback_witness :
    get_digest_algorithm "SHA3" = sha1Fn :=
  get_digest_algorithm_fallback "SHA3" (by decide) (by decide) (by decide)

/-- C10: TOTP operations never mutate stored configuration state: whatever
their outcome (including decrypt or decode failure), both `generate_otp`
and `validate_otp` return the configuration row unchanged in every field
when `otp_type` is `'totp'`. -/
theorem totp_ops_leave_config_unchanged (key : Nat) (cfg : OTPConfig) (flag : Bool)
    (nowG nowV : Nat) (code : String) (counterOpt : Option Nat)
    (h : cfg.otp_type = "totp") :
    (generate_otp key cfg flag nowG).2 = cfg ∧
    (validate_otp key cfg code counterOpt nowV).2 = cfg := by
  constructor
  · cases hd : decrypt_secret key cfg.secret_key with
    | none => simp [generate_otp, hd]
    | some sb =>
      cases hb : byte_secret (bytesToChars sb) with
      | none => simp [generate_otp, hd, hb]
      | some sk => simp [generate_otp, hd, hb, h]
  · cases hd : decrypt_secret key cfg.secret_key with
    | none => simp [validate_otp, hd]
    | some sb =>
      cases hb : byte_secret (bytesToChars sb) with
      | none => simp [validate_otp, hd, hb]
      | some sk => simp [validate_otp, hd, hb, h]

/-- C10 witness: the theorem applied to the RFC TOTP row at concrete times. -/
theorem totp_ops_leave_config_unchanged_witness :
    (generate_otp 7 cfgTotpRfc false 59).2 = cfgTotpRfc ∧
    (validate_otp 7 cfgTotpRfc "94287082" none 59).2 = cfgTotpRfc :=
  totp_ops_leave_config_unchanged 7 cfgTotpRfc false 59 59 "94287082" none rfl

/-- C8: HOTP counter advance on generation is opt-in: whenever `generate_otp`
on an HOTP row returns a code, the stored counter is incremented by exactly 1
and `next_counter` reports it when and only when `counter_increment` is set;
with the flag unset the row is unchanged and `next_counter` is absent. -/
theorem hotp_generate_counter_optin (key : Nat) (cfg : OTPConfig) (flag : Bool) (now : Nat)
    (r : OTPGenerateResponse) (hty : cfg.otp_type = "hotp")
    (hok : (generate_otp key cfg flag now).1 = Except.ok r) :
    (flag = true →
      (generate_otp key cfg flag now).2 =
        { cfg with counter := cfg.counter + 1, updated_at := now } ∧
      r.next_counter = some (cfg.counter + 1)) ∧
    (flag = false →
      (generate_otp key cfg flag now).2 = cfg ∧ r.next_counter = none) := by
  cases hd : decrypt_secret key cfg.secret_key with
  | none => simp [generate_otp, hd] at hok
  | some sb =>
    cases hb : byte_secret (bytesToChars sb) with
    | none => simp [generate_otp, hd, hb] at hok
    | some sk =>
      have hne : ¬ (cfg.otp_type = "totp") := by rw [hty]; decide
      cases flag with
      | true =>
        simp only [generate_otp, hd, hb] at hok ⊢
        rw [if_neg hne] at hok ⊢
        rw [if_pos trivial] at hok ⊢
        refine ⟨fun _ => ⟨rfl, ?_⟩, fun hf => absurd hf (by decide)⟩
        cases Except.ok.inj hok
        rfl
      | false =>
        simp only [generate_otp, hd, hb] at hok ⊢
        rw [if_neg hne] at hok ⊢
        rw [if_neg (by decide : ¬ ((false : Bool) = true))] at hok ⊢
        refine ⟨fun ht => absurd ht (by decide), fun _ => ⟨rfl, ?_⟩⟩
        cases Except.ok.inj hok
        rfl

/-- C8 witness: the theorem applied to the RFC HOTP row with the flag set. -/
theorem hotp_generate_counter_optin_witness :
    (generate_otp 7 cfgHotpRfc true 99).2 =
      { cfgHotpRfc with counter := cfgHotpRfc.counter + 1, updated_at := 99 } ∧
    (OTPGenerateResponse.mk "755224" none (some 1)).next_counter =
      some (cfgHotpRfc.counter + 1) :=
  (hotp_generate_counter_optin 7 cfgHotpRfc true 99 ⟨"755224", none, some 1⟩
    rfl (by decide)).1 rfl

/-- C5: HOTP counter advance on validation: a successful validation with no
explicit counter increments the stored counter by exactly 1 (stamping
`updated_at`); a validation with an explicit counter leaves the row
untouched regardless of outcome; a failed validation (including decrypt
failure) never changes the row. -/
theorem hotp_validate_counter_advance (key : Nat) (cfg : OTPConfig) (code : String)
    (counterOpt : Option Nat) (now : Nat) (hty : cfg.otp_type = "hotp") :
    (validationSucceeded (validate_otp key cfg code counterOpt now).1 = true →
      counterOpt = none →
      (validate_otp key cfg code counterOpt now).2 =
        { cfg with counter := cfg.counter + 1, updated_at := now }) ∧
    (counterOpt ≠ none → (validate_otp key cfg code counterOpt now).2 = cfg) ∧
    (validationSucceeded (validate_otp key cfg code counterOpt now).1 = false →
      (validate_otp key cfg code counterOpt now).2 = cfg) := by
  cases hd : decrypt_secret key cfg.secret_key with
  | none =>
    exact ⟨fun hs => by simp [validate_otp, hd, validationSucceeded] at hs,
      fun _ => by simp [validate_otp, hd], fun _ => by simp [validate_otp, hd]⟩
  | some sb =>
    cases hb : byte_secret (bytesToChars sb) with
    | none =>
      exact ⟨fun hs => by simp [validate_otp, hd, hb, validationSucceeded] at hs,
        fun _ => by simp [validate_otp, hd, hb], fun _ => by simp [validate_otp, hd, hb]⟩
    | some sk =>
      have hne : ¬ (cfg.otp_type = "totp") := by rw [hty]; decide
      simp only [validate_otp, hd, hb]
      rw [if_neg hne]
      by_cases hc : (hotp_verify (get_digest_algorithm cfg.algorithm) sk cfg.digits code
          (counterOpt.getD cfg.counter) = true ∧ counterOpt = none)
      · rw [if_pos hc]
        exact ⟨fun _ _ => rfl, fun hn => absurd hc.2 hn, fun hs => by
          simp only [validationSucceeded, hc.1] at hs
          exact absurd hs (by decide)⟩
      · rw [if_neg hc]
        refine ⟨fun hs hn => ?_, fun _ => rfl, fun _ => rfl⟩
        simp only [validationSucceeded] at hs
        exact absurd ⟨hs, hn⟩ hc

/-- C5 witness: the theorem applied to the RFC HOTP row, successful
validation of `"755224"` at stored counter 0 with no explicit counter. -/
theorem hotp_validate_counter_advance_witness :
    (validate_otp 7 cfgHotpRfc "755224" none 99).2 =
      { cfgHotpRfc with counter := cfgHotpRfc.counter + 1, updated_at := 99 } :=
  (hotp_validate_counter_advance 7 cfgHotpRfc "755224" none 99 rfl).1 (by decide) rfl

/-- C9: rate gate boundary behaviour for a fresh key with `max_requests = 3`
and `window = 60` seconds: four consecutive checks within one second are
allowed, allowed, allowed, denied (`is_rate_limited` returns `false` three
times, then `true` without recording a timestamp), and a fifth check made
once the window has elapsed past the recorded attempts is allowed again
(the stale timestamps are pruned). -/
theorem rate_gate_boundary (t1 t2 t3 t4 t5 : Int)
    (h12 : t1 ≤ t2) (h23 : t2 ≤ t3) (h34 : t3 ≤ t4) (hsec : t4 ≤ t1 + 1)
    (hgap : t3 + 60 ≤ t5) :
    (is_rate_limited [] t1 3 60).1 = false ∧
    (is_rate_limited (is_rate_limited [] t1 3 60).2 t2 3 60).1 = false ∧
    (is_rate_limited (is_rate_limited (is_rate_limited [] t1 3 60).2 t2 3 60).2
      t3 3 60).1 = false ∧
    (is_rate_limited (is_rate_limited (is_rate_limited (is_rate_limited [] t1 3 60).2
      t2 3 60).2 t3 3 60).2 t4 3 60).1 = true ∧
    (is_rate_limited (is_rate_limited (is_rate_limited (is_rate_limited (is_rate_limited
      [] t1 3 60).2 t2 3 60).2 t3 3 60).2 t4 3 60).2 t5 3 60).1 = false := by
  have k21 : t2 - (60 : Int) < t1 := by omega
  have k31 : t3 - (60 : Int) < t1 := by omega
  have k32 : t3 - (60 : Int) < t2 := by omega
  have k41 : t4 - (60 : Int) < t1 := by omega
  have k42 : t4 - (60 : Int) < t2 := by omega
  have k43 : t4 - (60 : Int) < t3 := by omega
  have k51 : ¬ (t5 - (60 : Int) < t1) := by omega
  have k52 : ¬ (t5 - (60 : Int) < t2) := by omega
  have k53 : ¬ (t5 - (60 : Int) < t3) := by omega
  have s1 : is_rate_limited [] t1 3 60 = (false, [t1]) := by
    simp [is_rate_limited]
  have s2 : is_rate_limited [t1] t2 3 60 = (false, [t1, t2]) := by
    simp [is_rate_limited, List.filter_cons, List.filter_nil, k21]
  have s3 : is_rate_limited [t1, t2] t3 3 60 = (false, [t1, t2, t3]) := by
    simp [is_rate_limited, List.filter_cons, List.filter_nil, k31, k32]
  have s4 : is_rate_limited [t1, t2, t3] t4 3 60 = (true, [t1, t2, t3]) := by
    simp [is_rate_limited, List.filter_cons, List.filter_nil, k41, k42, k43]
  have s5 : is_rate_limited [t1, t2, t3] t5 3 60 = (false, [t5]) := by
    simp [is_rate_limited, List.filter_cons, List.filter_nil, k51, k52, k53]
  simp only [s1, s2, s3, s4, s5]
  exact ⟨trivial, trivial, trivial, trivial, trivial⟩

/-! Helper lemmas for the cipher round trip and tamper detection. -/

theorem b64Rev_b64Char : ∀ n < 64, b64Rev (b64Char n) = some n := by decide

theorem b64Char_ne_pad : ∀ n < 64, b64Char n ≠ '=' := by decide

theorem decodeB64_encodeB64 : ∀ bs : List Nat, (∀ b ∈ bs, b < 256) →
    decodeB64 (encodeB64 bs) = some bs
  | [], _ => rfl
  | [a], h => by
    have ha : a < 256 := h a (by simp)
    have h1 : a / 4 < 64 := by omega
    have h2 : a % 4 * 16 < 64 := by omega
    simp [encodeB64, decodeB64, b64Rev_b64Char _ h1, b64Rev_b64Char _ h2]
    omega
  | [a, b], h => by
    have ha : a < 256 := h a (by simp)
    have hb : b < 256 := h b (by simp)
    have h1 : a / 4 < 64 := by omega
    have h2 : a % 4 * 16 + b / 16 < 64 := by omega
    have h3 : b % 16 * 4 < 64 := by omega
    simp [encodeB64, decodeB64, b64Rev_b64Char _ h1, b64Rev_b64Char _ h2,
      b64Rev_b64Char _ h3, b64Char_ne_pad _ h3]
    omega
  | a :: b :: c :: rest, h => by
    have ha : a < 256 := h a (by simp)
    have hb : b < 256 := h b (by simp)
    have hc : c < 256 := h c (by simp)
    have ih := decodeB64_encodeB64 rest (fun x hx => h x (by simp [hx]))
    have h1 : a / 4 < 64 := by omega
    have h2 : a % 4 * 16 + b / 16 < 64 := by omega
    have h3 : b % 16 * 4 + c / 64 < 64 := by omega
    have h4 : c % 64 < 64 := by omega
    simp [encodeB64, decodeB64, b64Rev_b64Char _ h1, b64Rev_b64Char _ h2,
      b64Rev_b64Char _ h3, b64Rev_b64Char _ h4, b64Char_ne_pad _ h3,
      b64Char_ne_pad _ h4, ih]
    omega

theorem xorStream_xorStream (key n : Nat) :
    ∀ (i : Nat) (l : List Nat), xorStream key n i (xorStream key n i l) = l
  | _, [] => rfl
  | i, b :: rest => by
    simp only [xorStream, Nat.xor_cancel_right]
    rw [xorStream_xorStream key n (i + 1) rest]

theorem xorStream_lt (key n : Nat) :
    ∀ (i : Nat) (l : List Nat), (∀ b ∈ l, b < 256) →
      ∀ x ∈ xorStream key n i l, x < 256
  | _, [], _ => by simp [xorStream]
  | i, b :: rest, h => by
    simp only [xorStream, List.mem_cons]
    rintro x (hx | hx)
    · subst hx
      have h8 : (256 : Nat) = 2 ^ 8 := by norm_num
      rw [h8]
      exact Nat.xor_lt_two_pow (h8 ▸ h b (by simp)) (h8 ▸ Nat.mod_lt _ (by norm_num))
    · exact xorStream_lt key n (i + 1) rest (fun y hy => h y (by simp [hy])) x hx

theorem xorStream_length (key n : Nat) :
    ∀ (i : Nat) (l : List Nat), (xorStream key n i l).length = l.length
  | _, [] => rfl
  | i, b :: rest => by
    simp only [xorStream, List.length_cons]
    rw [xorStream_length key n (i + 1) rest]

theorem parseBlob_split (nonce : Nat) (ct tag : List Nat)
    (hlen : tag.length = ct.length + 2) :
    parseBlob (nonce :: (ct ++ tag)) = some ⟨nonce, ct, tag⟩ := by
  have hred : parseBlob (nonce :: (ct ++ tag)) =
      if (ct ++ tag).length = 2 * (((ct ++ tag).length - 2) / 2) + 2 then
        some ⟨nonce, (ct ++ tag).take (((ct ++ tag).length - 2) / 2),
          (ct ++ tag).drop (((ct ++ tag).length - 2) / 2)⟩
      else none := rfl
  have h2 : ((ct ++ tag).length - 2) / 2 = ct.length := by
    simp only [List.length_append, hlen]
    omega
  rw [hred, h2, if_pos (by simp only [List.length_append, hlen]; omega)]
  rw [List.take_left, List.drop_left]

theorem fernetDecrypt_fernetEncrypt (key nonce : Nat) (pt : List Nat) :
    fernetDecrypt key (fernetEncrypt key nonce pt) = some pt := by
  simp only [fernetDecrypt, fernetEncrypt, if_pos rfl]
  rw [xorStream_xorStream]
  simp

/-- Every byte of a set position differing from the original changes the
list. -/
theorem set_ne_of_getD {l : List Nat} {j b : Nat} (hj : j < l.length)
    (hne : b ≠ l.getD j 0) : l.set j b ≠ l := by
  intro he
  apply hne
  have : (l.set j b).getD j 0 = b := by
    rw [List.getD_eq_getElem _ _ (by simp [List.length_set]; omega)]
    exact List.getElem_set_self _
  rw [← this, he]

/-- Every byte of a stored token is below 256 when the plaintext's are. -/
theorem serialize_encrypt_bytes_lt (key nonce : Nat) (pt : List Nat)
    (h : ∀ b ∈ pt, b < 256) :
    ∀ b ∈ serializeBlob (fernetEncrypt key nonce pt), b < 256 := by
  intro b hb
  have hct := xorStream_lt key (nonce % 256) 0 pt h
  have h1 : nonce % 256 < 256 := Nat.mod_lt _ (by norm_num)
  have h2 : key % 256 < 256 := Nat.mod_lt _ (by norm_num)
  have hb' : b ∈ (nonce % 256) :: (xorStream key (nonce % 256) 0 pt ++
      macTag key (nonce % 256) (xorStream key (nonce % 256) 0 pt)) := hb
  rcases List.mem_cons.mp hb' with rfl | hb2
  · exact h1
  rcases List.mem_append.mp hb2 with hb3 | hb3
  · exact hct b hb3
  rcases List.mem_cons.mp hb3 with rfl | hb4
  · exact h2
  rcases List.mem_cons.mp hb4 with rfl | hb5
  · exact h1
  exact hct b hb5

/-- C4: encryption round trip: for every secret and key (and fresh nonce),
decrypting the stored text of the encrypted secret yields exactly the
original secret bytes, and the blob's textual encoding round-trips exactly
through urlsafe base64 encode then decode. -/
theorem secret_cipher_round_trip (key nonce : Nat) (secret : List Nat)
    (hbytes : ∀ b ∈ secret, b < 256) :
    decrypt_secret key (encrypt_secret key nonce secret) = some secret ∧
    decodeB64 (encodeB64 (serializeBlob (fernetEncrypt key nonce secret))) =
      some (serializeBlob (fernetEncrypt key nonce secret)) := by
  have htok := serialize_encrypt_bytes_lt key nonce secret hbytes
  have hdec := decodeB64_encodeB64 _ htok
  refine ⟨?_, hdec⟩
  simp only [encrypt_secret, decrypt_secret, hdec, Option.some_bind, decryptToken]
  have hparse : parseBlob (serializeBlob (fernetEncrypt key nonce secret)) =
      some (fernetEncrypt key nonce secret) :=
    parseBlob_split _ _ _ (by simp [fernetEncrypt, macTag])
  rw [hparse]
  simp only [Option.some_bind]
  exact fernetDecrypt_fernetEncrypt key nonce secret

/-- C4 witness: the round trip at a concrete key, nonce and secret. -/
theorem secret_cipher_round_trip_witness :
    decrypt_secret 5 (encrypt_secret 5 9 [1, 2, 3]) = some [1, 2, 3] ∧
    decodeB64 (encodeB64 (serializeBlob (fernetEncrypt 5 9 [1, 2, 3]))) =
      some (serializeBlob (fernetEncrypt 5 9 [1, 2, 3])) :=
  secret_cipher_round_trip 5 9 [1, 2, 3] (by decide)

/-- C3: decryption of a tampered blob fails closed.  Modelled from the spec:
for every stored `EncryptedBlob` token (the nonce / ciphertext /
authentication-tag byte sequence produced by encryption) and every
modification of any single byte of it, decryption fails (returns `none`,
the spec's `IntegrityError`) and never returns any plaintext. -/
theorem tamper_fails_closed (key nonce : Nat) (pt : List Nat) (i b : Nat)
    (hi : i < (serializeBlob (fernetEncrypt key nonce pt)).length)
    (hb : b ≠ (serializeBlob (fernetEncrypt key nonce pt)).getD i 0) :
    decryptToken key ((serializeBlob (fernetEncrypt key nonce pt)).set i b) = none := by
  set n' := nonce % 256 with hn'
  set ct := xorStream key n' 0 pt with hct
  set tag := macTag key n' ct with htag
  have htaglen : tag.length = ct.length + 2 := by simp [htag, macTag]
  have htok : serializeBlob (fernetEncrypt key nonce pt) = n' :: (ct ++ tag) := rfl
  rw [htok] at hi hb ⊢
  simp only [List.length_cons, List.length_append, htaglen] at hi
  cases i with
  | zero =>
    simp only [List.getD_cons_zero] at hb
    simp only [List.set_cons_zero, decryptToken]
    rw [parseBlob_split _ _ _ htaglen]
    simp only [Option.some_bind, fernetDecrypt]
    rw [if_neg]
    intro he
    exact hb ((List.cons.injEq _ _ _ _).mp ((List.cons.injEq _ _ _ _).mp (htag ▸ he)).2).1.symm
  | succ j =>
    simp only [List.getD_cons_succ] at hb
    simp only [List.set_cons_succ, decryptToken]
    rcases Nat.lt_or_ge j ct.length with hj | hj
    · -- tampering inside the ciphertext
      rw [List.set_append, if_pos hj]
      have hlen' : tag.length = (ct.set j b).length + 2 := by simp [List.length_set, htaglen]
      rw [parseBlob_split _ _ _ hlen']
      simp only [Option.some_bind, fernetDecrypt]
      rw [if_neg]
      intro he
      have hctne : ct.set j b ≠ ct := by
        refine set_ne_of_getD hj ?_
        rw [List.getD_append _ _ _ _ hj] at hb
        exact hb
      exact hctne (((List.cons.injEq _ _ _ _).mp
        ((List.cons.injEq _ _ _ _).mp (htag ▸ he)).2).2).symm
    · -- tampering inside the tag
      rw [List.set_append, if_neg (by omega)]
      have hlen' : (tag.set (j - ct.length) b).length = ct.length + 2 := by
        simp [List.length_set, htaglen]
      rw [parseBlob_split _ _ _ hlen']
      simp only [Option.some_bind, fernetDecrypt]
      rw [if_neg]
      intro he
      have htagne : tag.set (j - ct.length) b ≠ tag := by
        refine set_ne_of_getD (by omega) ?_
        rw [List.getD_append_right _ _ _ _ hj] at hb
        exact hb
      exact htagne (he.trans htag.symm)

/-- C3 witness: the tamper theorem at a concrete key, nonce, plaintext and
tampered position. -/
theorem tamper_fails_closed_witness :
    decryptToken 5 ((serializeBlob (fernetEncrypt 5 9 [1, 2, 3])).set 2 77) = none :=
  tamper_fails_closed 5 9 [1, 2, 3] 2 77 (by decide) (by decide)

/-- C7 counterexample: the claim that a TOTP code generated at time T never
verifies at `T + 2*interval` is false: with the RFC secret, SHA-1, 6 digits
and interval 30, the codes at timesteps 103424 and 103427 coincide
(`"746629"`), so the code generated at `T = 3102720` is accepted by
`verify(..., valid_window=1)` at time `T + 60`. -/
theorem totp_window_collision :
    totp_at sha1Fn rfcSecretBytes 6 30 3102720 =
      hotp_at sha1Fn rfcSecretBytes 6 103427 ∧
    totp_verify sha1Fn rfcSecretBytes 6 30
      (totp_at sha1Fn rfcSecretBytes 6 30 3102720) (3102720 + 2 * 30) 1 = true := by
  exact ⟨by decide, by decide⟩

/-- C7 (amended): with window 1, a TOTP code generated at time T verifies at
`T - interval` and `T + interval`; it does NOT verify at `T - 2*interval`
(resp. `T + 2*interval`) provided the code at T's timestep differs from the
codes at the three timesteps covered by the shifted window — a proviso the
original claim omits, and which genuine collisions (see the counterexample)
can violate. -/
theorem totp_window_tolerance (H : HashFn) (sk : List Nat) (digits interval T : Nat)
    (hpos : 0 < interval) (htc : 3 ≤ T / interval) :
    totp_verify H sk digits interval (totp_at H sk digits interval T) (T - interval) 1 = true ∧
    totp_verify H sk digits interval (totp_at H sk digits interval T) (T + interval) 1 = true ∧
    ((totp_at H sk digits interval T ≠ generate_otp_code H sk digits (T / interval - 3) ∧
      totp_at H sk digits interval T ≠ generate_otp_code H sk digits (T / interval - 2) ∧
      totp_at H sk digits interval T ≠ generate_otp_code H sk digits (T / interval - 1)) →
      totp_verify H sk digits interval (totp_at H sk digits interval T)
        (T - 2 * interval) 1 = false) ∧
    ((totp_at H sk digits interval T ≠ generate_otp_code H sk digits (T / interval + 1) ∧
      totp_at H sk digits interval T ≠ generate_otp_code H sk digits (T / interval + 2) ∧
      totp_at H sk digits interval T ≠ generate_otp_code H sk digits (T / interval + 3)) →
      totp_verify H sk digits interval (totp_at H sk digits interval T)
        (T + 2 * interval) 1 = false) := by
  have hmul : 3 * interval ≤ T := (Nat.le_div_iff_mul_le hpos).mp htc
  have e1 : T / interval = (T - interval) / interval + 1 := by
    have h' : T = T - interval + interval := by omega
    calc T / interval = (T - interval + interval) / interval := by rw [← h']
      _ = (T - interval) / interval + 1 := Nat.add_div_right _ hpos
  have dminus1 : (T - interval) / interval = T / interval - 1 := by omega
  have e2 : T / interval = (T - 2 * interval) / interval + 2 := by
    have h' : T = T - 2 * interval + interval + interval := by omega
    calc T / interval = (T - 2 * interval + interval + interval) / interval := by rw [← h']
      _ = (T - 2 * interval) / interval + 2 := by
          rw [Nat.add_div_right _ hpos, Nat.add_div_right _ hpos]
  have dminus2 : (T - 2 * interval) / interval = T / interval - 2 := by omega
  have dplus1 : (T + interval) / interval = T / interval + 1 := Nat.add_div_right _ hpos
  have dplus2 : (T + 2 * interval) / interval = T / interval + 2 := by
    rw [show T + 2 * interval = T + interval + interval from by ring,
      Nat.add_div_right _ hpos, Nat.add_div_right _ hpos]
  refine ⟨?_, ?_, ?_, ?_⟩
  · simp only [totp_verify, timecode]
    rw [List.any_eq_true]
    refine ⟨2, List.mem_range.mpr (by omega), ?_⟩
    rw [dminus1, show T / interval - 1 + 2 - 1 = T / interval from by omega]
    simp only [totp_at, timecode]
    exact beq_self_eq_true _
  · simp only [totp_verify, timecode]
    rw [List.any_eq_true]
    refine ⟨0, List.mem_range.mpr (by omega), ?_⟩
    rw [dplus1, show T / interval + 1 + 0 - 1 = T / interval from by omega]
    simp only [totp_at, timecode]
    exact beq_self_eq_true _
  · intro hne
    simp only [totp_at, timecode] at hne
    simp only [totp_verify, timecode]
    rw [List.any_eq_false]
    intro j hj
    rw [List.mem_range] at hj
    rw [dminus2]
    simp only [totp_at, timecode, beq_iff_eq]
    interval_cases j
    · rw [show T / interval - 2 + 0 - 1 = T / interval - 3 from by omega]
      exact hne.1
    · rw [show T / interval - 2 + 1 - 1 = T / interval - 2 from by omega]
      exact hne.2.1
    · rw [show T / interval - 2 + 2 - 1 = T / interval - 1 from by omega]
      exact hne.2.2
  · intro hne
    simp only [totp_at, timecode] at hne
    simp only [totp_verify, timecode]
    rw [List.any_eq_false]
    intro j hj
    rw [List.mem_range] at hj
    rw [dplus2]
    simp only [totp_at, timecode, beq_iff_eq]
    interval_cases j
    · rw [show T / interval + 2 + 0 - 1 = T / interval + 1 from by omega]
      exact hne.1
    · rw [show T / interval + 2 + 1 - 1 = T / interval + 2 from by omega]
      exact hne.2.1
    · rw [show T / interval + 2 + 2 - 1 = T / interval + 3 from by omega]
      exact hne.2.2

/-- C7 witness: the amended theorem at the RFC secret, SHA-1, 6 digits,
interval 30 and T = 150 (timestep 5), where the neighbouring codes are all
distinct so both negative parts apply. -/
theorem totp_window_tolerance_witness :
    totp_verify sha1Fn rfcSecretBytes 6 30 (totp_at sha1Fn rfcSecretBytes 6 30 150)
      (150 - 30) 1 = true ∧
    totp_verify sha1Fn rfcSecretBytes 6 30 (totp_at sha1Fn rfcSecretBytes 6 30 150)
      (150 + 30) 1 = true ∧
    totp_verify sha1Fn rfcSecretBytes 6 30 (totp_at sha1Fn rfcSecretBytes 6 30 150)
      (150 - 2 * 30) 1 = false ∧
    totp_verify sha1Fn rfcSecretBytes 6 30 (totp_at sha1Fn rfcSecretBytes 6 30 150)
      (150 + 2 * 30) 1 = false := by
  have h := totp_window_tolerance sha1Fn rfcSecretBytes 6 30 150 (by decide) (by decide)
  exact ⟨h.1, h.2.1, h.2.2.1 (by decide), h.2.2.2 (by decide)⟩

/-- C9 witness: the theorem applied at call times 0, 0, 1, 1 and 61. -/
theorem rate_gate_boundary_witness :
    (is_rate_limited [] 0 3 60).1 = false ∧
    (is_rate_limited (is_rate_limited [] 0 3 60).2 0 3 60).1 = false ∧
    (is_rate_limited (is_rate_limited (is_rate_limited [] 0 3 60).2 0 3 60).2
      1 3 60).1 = false ∧
    (is_rate_limited (is_rate_limited (is_rate_limited (is_rate_limited [] 0 3 60).2
      0 3 60).2 1 3 60).2 1 3 60).1 = true ∧
    (is_rate_limited (is_rate_limited (is_rate_limited (is_rate_limited (is_rate_limited
      [] 0 3 60).2 0 3 60).2 1 3 60).2 1 3 60).2 61 3 60).1 = false :=
  rate_gate_boundary 0 0 1 1 61 (by decide) (by decide) (by decide) (by decide) (by decide)
